import Mathlib

/-
  Shallow embedding of the context-window orchestration core of memory-mcp.

  Sources embedded:
  - src/wordcount.ts        (getWordCount)
  - src/orchestrator.ts     (ConversationOrchestrator)
  - src/db.ts               (archiveContext, retrieveContext, scoreRelevance,
                             createSummary, saveConversationState)
  - src/validation.ts       (sanitizeInput, validateStringArray, validateTags,
                             validateConversationId)
  - src/scorers/KeywordScorer.ts (per-item Jaccard score)
  - src/types.ts            (Memory, ConversationState, decisions)

  Numbers: JS floating-point arithmetic on the small decimal thresholds
  (0.8, 0.3, 0.2, 0.1) and on word counts is modelled with exact rationals
  and integers; at all values appearing in the claims the float comparisons
  agree with the rational ones.  MongoDB per-document effects are modelled
  as pure functions on an explicit Store value.
-/

namespace MemoryMcp

/-! ### JavaScript string primitives

`str.split(/\s+/)` in JavaScript splits at every maximal whitespace run and
produces an empty token at the start (resp. end) when the string starts
(resp. ends) with whitespace; on the empty string it produces `[""]`.
We model strings as their character lists. -/

def jsSplitWsAux : List Char → List Char → Bool → List (List Char)
  | [], cur, _ => [cur.reverse]
  | c :: rest, cur, inWs =>
    if c.isWhitespace then
      if inWs then jsSplitWsAux rest cur true
      else cur.reverse :: jsSplitWsAux rest [] true
    else jsSplitWsAux rest (c :: cur) false

/-- JS `s.split(/\s+/)` on the character list of `s`. -/
def jsSplitWs (l : List Char) : List (List Char) :=
  jsSplitWsAux l [] false

/-- JS `String.prototype.trim`: strip whitespace from both ends. -/
def trimChars (l : List Char) : List Char :=
  ((l.dropWhile Char.isWhitespace).reverse.dropWhile Char.isWhitespace).reverse

/-- JS `String.prototype.trim` on a Lean string. -/
def strTrim (s : String) : String :=
  String.mk (trimChars s.data)

/-- src/wordcount.ts: `text.trim().split(/\s+/).filter(w => w.length > 0).length`
(the memo cache does not change the result). -/
def getWordCount (s : String) : Nat :=
  ((jsSplitWs (trimChars s.data)).filter (fun t => !t.isEmpty)).length

/-- JS `array.join(" ")`. -/
def joinSpace (xs : List String) : String :=
  String.intercalate " " xs

/-- Lower-cased whitespace-tokenized word set of a string, as built by
`new Set(text.toLowerCase().split(/\s+/))` in db.ts `scoreRelevance` and in
`KeywordScorer.scoreRelevance`. -/
def tokenFinset (s : String) : Finset (List Char) :=
  (jsSplitWs (s.data.map Char.toLower)).toFinset

/-- db.ts `scoreRelevance` per-item score:
`intersection.size / union.size` on the two token sets. -/
def jaccardScore (query text : String) : ℚ :=
  (((tokenFinset query) ∩ (tokenFinset text)).card : ℚ) /
    (((tokenFinset query) ∪ (tokenFinset text)).card : ℚ)

/-- scorers/KeywordScorer.ts per-item score: the same two token sets, then
`union.size > 0 ? intersection.size / union.size : 0` passed through
`normalizeScore(x) = Math.max(0, Math.min(1, x))` from BaseScorer.ts. -/
def keywordScorerItemScore (currentContext itemText : String) : ℚ :=
  let inter := (tokenFinset currentContext) ∩ (tokenFinset itemText)
  let uni := (tokenFinset currentContext) ∪ (tokenFinset itemText)
  if 0 < uni.card then
    max 0 (min 1 ((inter.card : ℚ) / (uni.card : ℚ)))
  else 0

/-! ### Data model (src/types.ts) -/

inductive ContextType where
  | active
  | archived
  | summary
deriving DecidableEq

/-- One document of the `memories` collection.  `id` stands for the Mongo
`_id`; timestamps are abstract integers. -/
structure Memory where
  id : Nat
  memories : List String
  timestamp : Int
  llm : String
  userId : Option String
  conversationId : Option String
  contextType : Option ContextType
  relevanceScore : Option ℚ
  tags : List String
  parentContextId : Option Nat
  messageIndex : Option Nat
  wordCount : Option Nat
  summaryText : Option String
deriving DecidableEq

/-- One document of the `conversation_states` collection
(db.ts `saveConversationState`). -/
structure SavedState where
  conversationId : String
  currentContext : List String
  totalWordCount : Int
  maxWordCount : Int
  llm : String
  userId : Option String
  lastUpdated : Int
deriving DecidableEq

/-- The durable store: the `memories` collection, the conversation-state
collection, and a fresh-id supply standing for Mongo ObjectId generation. -/
structure Store where
  items : List Memory
  states : List SavedState
  nextId : Nat
deriving DecidableEq

structure ConversationState where
  conversationId : String
  currentContext : List String
  archivedContext : List Memory
  summaries : List Memory
  totalWordCount : Int
  maxWordCount : Int
  llm : String
  userId : Option String
deriving DecidableEq

structure ArchiveDecision where
  shouldArchive : Bool
  messagesToArchive : List String
  tags : List String
  reason : String
deriving DecidableEq

structure RetrievalDecision where
  shouldRetrieve : Bool
  contextToRetrieve : List Memory
  reason : String
deriving DecidableEq

/-- Word-count bookkeeping invariant of a conversation state (types.ts /
spec section 3). -/
def WordCountInv (s : ConversationState) : Prop :=
  s.totalWordCount = ((s.currentContext.map getWordCount).sum : Int)

instance (s : ConversationState) : Decidable (WordCountInv s) := by
  unfold WordCountInv; infer_instance

/-! ### Validation layer (src/validation.ts)

Throwing a `ValidationError` is modelled as `Except.error .validationError`;
a failed Mongo write is `Except.error .storeFailure`. -/

inductive DbError where
  | validationError
  | storeFailure
deriving DecidableEq

deriving instance DecidableEq for Except

/-- validation.ts `sanitizeInput`: length check, then `input.trim()`. -/
def sanitizeInput (input : String) (maxLength : Nat) : Except DbError String :=
  if input.length > maxLength then .error .validationError
  else .ok (strTrim input)

/-- The map `arr.map(item => sanitizeInput(item, maxLength))` with the first
validation failure propagated. -/
def sanitizeAll : List String → Nat → Except DbError (List String)
  | [], _ => .ok []
  | s :: rest, maxLength =>
    match sanitizeInput s maxLength with
    | .error e => .error e
    | .ok v =>
      match sanitizeAll rest maxLength with
      | .error e => .error e
      | .ok vs => .ok (v :: vs)

/-- validation.ts `validateStringArray`. -/
def validateStringArray (arr : List String) (maxLength maxItems : Nat) :
    Except DbError (List String) :=
  if arr.length > maxItems then .error .validationError
  else sanitizeAll arr maxLength

/-- validation.ts `validateTags`. -/
def validateTags (tags : List String) : Except DbError (List String) :=
  if tags.length > 50 then .error .validationError
  else if tags.any (fun t => t.length > 100) then .error .validationError
  else .ok (tags.map strTrim)

/-- validation.ts `validateConversationId`. -/
def validateConversationId (id : String) : Except DbError String :=
  if id.length = 0 then .error .validationError
  else if id.length > 256 then .error .validationError
  else .ok (strTrim id)

/-- The expression `userId ? sanitizeInput(userId, 256) : undefined`. -/
def sanitizeUserId : Option String → Except DbError (Option String)
  | none => .ok none
  | some u =>
    match sanitizeInput u 256 with
    | .error e => .error e
    | .ok v => .ok (some v)

/-! ### Store layer (src/db.ts) -/

namespace Db

/-- db.ts `archiveContext`: validate all inputs, then insert one
`contextType: "archived"` document per message, with no `relevanceScore`
field.  `storeFail = true` makes the `insertMany` call fail (the model of a
Mongo write error); validation errors also propagate as errors.  `now` is
the shared `new Date()` timestamp of the batch. -/
def archiveContext (storeFail : Bool) (conversationId : String)
    (contextMessages tags : List String) (llm : String)
    (userId : Option String) (now : Int) (st : Store) :
    Except DbError (Nat × Store) :=
  match validateConversationId conversationId with
  | .error e => .error e
  | .ok vcid =>
    match validateStringArray contextMessages 10000 100 with
    | .error e => .error e
    | .ok vmsgs =>
      match validateTags tags with
      | .error e => .error e
      | .ok vtags =>
        match sanitizeInput llm 100 with
        | .error e => .error e
        | .ok vllm =>
          match sanitizeUserId userId with
          | .error e => .error e
          | .ok vuid =>
            if storeFail then .error .storeFailure
            else
              let newItems := vmsgs.enum.map (fun p =>
                { id := st.nextId + p.1
                  memories := [p.2]
                  timestamp := now
                  llm := vllm
                  userId := vuid
                  conversationId := some vcid
                  contextType := some ContextType.archived
                  relevanceScore := none
                  tags := vtags
                  parentContextId := none
                  messageIndex := some p.1
                  wordCount := some (jsSplitWs p.2.data).length
                  summaryText := none : Memory })
              .ok (newItems.length,
                   { st with items := st.items ++ newItems,
                             nextId := st.nextId + newItems.length })

/-- The `relevanceScore: { $gte: minRelevanceScore }` part of the
`retrieveContext` filter: a document missing the field does not match. -/
def scoreMatches (minRelevanceScore : ℚ) (m : Memory) : Bool :=
  match m.relevanceScore with
  | some r => decide (minRelevanceScore ≤ r)
  | none => false

/-- The optional `tags: { $in: tags }` part of the filter (only applied for
a present, non-empty tag list). -/
def tagsMatch (tags : Option (List String)) (m : Memory) : Bool :=
  match tags with
  | some ts => if ts.isEmpty then true else m.tags.any (fun t => ts.contains t)
  | none => true

/-- The whole `retrieveContext` find filter. -/
def matchesRetrieve (conversationId : String) (tags : Option (List String))
    (minRelevanceScore : ℚ) (m : Memory) : Bool :=
  decide (m.conversationId = some conversationId) &&
  decide (m.contextType = some ContextType.archived) &&
  scoreMatches minRelevanceScore m &&
  tagsMatch tags m

/-- Relevance score used for sorting, `relevanceScore: -1` first. -/
def itemScoreD (m : Memory) : ℚ :=
  m.relevanceScore.getD 0

/-- The Mongo sort order `{ relevanceScore: -1, timestamp: -1 }`:
`a` comes before `b`. -/
def retrieveBefore (a b : Memory) : Prop :=
  itemScoreD b < itemScoreD a ∨
    (itemScoreD a = itemScoreD b ∧ b.timestamp ≤ a.timestamp)

instance : DecidableRel retrieveBefore := fun a b => by
  unfold retrieveBefore; infer_instance

instance : IsTotal Memory retrieveBefore where
  total a b := by
    unfold retrieveBefore
    rcases lt_trichotomy (itemScoreD a) (itemScoreD b) with h | h | h
    · exact Or.inr (Or.inl h)
    · rcases le_total a.timestamp b.timestamp with ht | ht
      · exact Or.inr (Or.inr ⟨h.symm, ht⟩)
      · exact Or.inl (Or.inr ⟨h, ht⟩)
    · exact Or.inl (Or.inl h)

instance : IsTrans Memory retrieveBefore where
  trans a b c hab hbc := by
    unfold retrieveBefore at *
    rcases hab with h1 | ⟨h1, t1⟩
    · rcases hbc with h2 | ⟨h2, t2⟩
      · exact Or.inl (h2.trans h1)
      · exact Or.inl (h2 ▸ h1)
    · rcases hbc with h2 | ⟨h2, t2⟩
      · exact Or.inl (h1 ▸ h2)
      · exact Or.inr ⟨h1.trans h2, t2.trans t1⟩

/-- db.ts `retrieveContext`: filter by conversation, archived context type,
score threshold and optional tags; sort by descending score then descending
timestamp; take `limit` items.  (The projection only drops fields and is
omitted.) -/
def retrieveContext (conversationId : String) (tags : Option (List String))
    (minRelevanceScore : ℚ) (limit : Nat) (st : Store) : List Memory :=
  (List.insertionSort retrieveBefore
      (st.items.filter (matchesRetrieve conversationId tags minRelevanceScore))).take limit

/-- Match condition of the db.ts `scoreRelevance` query
(`{ conversationId, contextType: "archived" }`). -/
def scoreTarget (conversationId : String) (m : Memory) : Bool :=
  decide (m.conversationId = some conversationId) &&
  decide (m.contextType = some ContextType.archived)

/-- db.ts `scoreRelevance`: recompute the Jaccard score of every archived
item of the conversation against `currentContext` and persist all scores in
one bulk write (keyed by `_id`, modelled as a map over the collection).
Returns the number of scored items. -/
def scoreRelevance (conversationId : String) (currentContext : String)
    (st : Store) : Nat × Store :=
  ((st.items.filter (scoreTarget conversationId)).length,
   { st with items := st.items.map (fun m =>
       if scoreTarget conversationId m then
         { m with relevanceScore := some (jaccardScore currentContext (joinSpace m.memories)) }
       else m) })

/-- db.ts `createSummary`: insert one `contextType: "summary"` document,
then update every passed item (keyed by `_id`) to
`contextType: "archived", parentContextId: summaryId`.  Returns the new
summary id with the updated store. -/
def createSummary (conversationId : String) (contextItems : List Memory)
    (summaryText llm : String) (userId : Option String) (now : Int)
    (st : Store) : Nat × Store :=
  let summaryId := st.nextId
  let summaryDoc : Memory :=
    { id := summaryId
      memories := [summaryText]
      timestamp := now
      llm := llm
      userId := userId
      conversationId := some conversationId
      contextType := some ContextType.summary
      relevanceScore := none
      tags := []
      parentContextId := none
      messageIndex := none
      wordCount := some (jsSplitWs summaryText.data).length
      summaryText := some summaryText }
  let itemIds := contextItems.map (fun m => m.id)
  (summaryId,
   { st with
       items := (st.items.map (fun m =>
           if m.id ∈ itemIds then
             { m with contextType := some ContextType.archived,
                      parentContextId := some summaryId }
           else m)) ++ [summaryDoc]
       nextId := st.nextId + 1 })

/-- db.ts `saveConversationState`: upsert by conversation id into the
conversation-state collection. -/
def saveConversationState (s : ConversationState) (now : Int) (st : Store) :
    Store :=
  let doc : SavedState :=
    { conversationId := s.conversationId
      currentContext := s.currentContext
      totalWordCount := s.totalWordCount
      maxWordCount := s.maxWordCount
      llm := s.llm
      userId := s.userId
      lastUpdated := now }
  if st.states.any (fun t => t.conversationId == s.conversationId) then
    { st with states := st.states.map (fun t =>
        if t.conversationId == s.conversationId then doc else t) }
  else
    { st with states := st.states ++ [doc] }

end Db

/-! ### Orchestrator layer (src/orchestrator.ts)

The `conversations` Map is modelled as an association list; the decision and
execution methods are the methods of `ConversationOrchestrator`.  Reason
strings carry the fixed prefix text of the source (the interpolated
percentages are immaterial to every claim and are omitted from the model's
reason strings). -/

namespace Orchestrator

inductive OrchError where
  | notFound
  | emptyInput
deriving DecidableEq

structure ConversationStatus where
  state : ConversationState
  recommendations : List String
deriving DecidableEq

/-- The lookup `this.conversations.get(id)`. -/
def lookupConv : List (String × ConversationState) → String →
    Option ConversationState
  | [], _ => none
  | (k, v) :: rest, id => if k = id then some v else lookupConv rest id

/-- The write `this.conversations.set(id, s)` over an existing key (the in-place
mutation of the state object held by the Map). -/
def setConv (convs : List (String × ConversationState)) (id : String)
    (s : ConversationState) : List (String × ConversationState) :=
  convs.map (fun p => if p.1 = id then (p.1, s) else p)

/-- The fresh state built by `initializeConversation` for an unknown id. -/
def freshState (conversationId llm : String) (userId : Option String)
    (maxWordCount : Int) : ConversationState :=
  { conversationId := conversationId
    currentContext := []
    archivedContext := []
    summaries := []
    totalWordCount := 0
    maxWordCount := maxWordCount
    llm := llm
    userId := userId }

/-- orchestrator.ts `initializeConversation`: return the cached state, or
create and cache a fresh one.  `maxWordCount` is the constructor argument of
`ConversationOrchestrator` (default 8000). -/
def initializeConversation (convs : List (String × ConversationState))
    (maxWordCount : Int) (conversationId llm : String)
    (userId : Option String) :
    ConversationState × List (String × ConversationState) :=
  match lookupConv convs conversationId with
  | some s => (s, convs)
  | none =>
    let s := freshState conversationId llm userId maxWordCount
    (s, convs ++ [(conversationId, s)])

/-- The count `Math.floor(len * 0.3)` of orchestrator.ts `shouldArchive`. -/
def archiveSliceLen (len : Nat) : Nat :=
  (⌊(len : ℚ) * (3 / 10)⌋).toNat

/-- The keyword categories of orchestrator.ts `generateTags`, in source
order, each with its word-boundary alternatives. -/
def tagCategories : List (String × List String) :=
  [("programming", ["code", "coding", "programming", "developer", "software"]),
   ("technical", ["technical", "api", "database", "server", "client"]),
   ("frontend", ["frontend", "ui", "ux", "interface", "design"]),
   ("backend", ["backend", "server", "database", "api"]),
   ("data", ["data", "analysis", "analytics", "research"]),
   ("writing", ["writing", "content", "creative", "documentation"]),
   ("business", ["business", "strategy", "planning", "management"])]

/-- JS regex word characters (`\w`). -/
def isWordChar (c : Char) : Bool :=
  c.isAlphanum || c == '_'

/-- Maximal runs of word characters; `\bk\b` matches the text exactly when
the (word-character-only) keyword `k` is one of these runs. -/
def wordRunsAux : List Char → List Char → List (List Char)
  | [], cur => if cur.isEmpty then [] else [cur.reverse]
  | c :: rest, cur =>
    if isWordChar c then wordRunsAux rest (c :: cur)
    else if cur.isEmpty then wordRunsAux rest []
    else cur.reverse :: wordRunsAux rest []

def wordRuns (l : List Char) : List (List Char) :=
  wordRunsAux l []

/-- orchestrator.ts `generateTags`: lower-case the joined messages, emit
each category whose regex matches, and fall back to `["general"]`. -/
def generateTags (messages : List String) : List String :=
  let runs := wordRuns ((joinSpace messages).data.map Char.toLower)
  let tags := (tagCategories.filter
      (fun cat => cat.2.any (fun kw => decide (kw.data ∈ runs)))).map (fun cat => cat.1)
  if tags.isEmpty then ["general"] else tags

/-- orchestrator.ts `shouldArchive` (ARCHIVE_THRESHOLD = 0.8): below the
threshold the decision is negative; otherwise the oldest
`Math.floor(len * 0.3)` messages are selected. -/
def shouldArchive (s : ConversationState) : ArchiveDecision :=
  let usage : ℚ := (s.totalWordCount : ℚ) / (s.maxWordCount : ℚ)
  if usage < 4 / 5 then
    { shouldArchive := false, messagesToArchive := [], tags := [],
      reason := "Below archive threshold" }
  else
    let messagesToArchive :=
      s.currentContext.take (archiveSliceLen s.currentContext.length)
    { shouldArchive := true
      messagesToArchive := messagesToArchive
      tags := generateTags messagesToArchive
      reason := "Context usage above threshold, archiving oldest messages" }

/-- orchestrator.ts `shouldRetrieve` (RETRIEVE_THRESHOLD = 0.3): above the
threshold the decision is negative; otherwise run `scoreRelevance` on the
joined current context (persisting all scores), then `retrieveContext` with
minimum score 0.2 and limit 5. -/
def shouldRetrieve (s : ConversationState) (st : Store) :
    RetrievalDecision × Store :=
  let usage : ℚ := (s.totalWordCount : ℚ) / (s.maxWordCount : ℚ)
  if usage > 3 / 10 then
    ({ shouldRetrieve := false, contextToRetrieve := [],
       reason := "Above retrieve threshold" }, st)
  else
    let currentContextText := joinSpace s.currentContext
    let st2 := (Db.scoreRelevance s.conversationId currentContextText st).2
    let relevantContext := Db.retrieveContext s.conversationId none (2 / 10) 5 st2
    if relevantContext.isEmpty then
      ({ shouldRetrieve := false, contextToRetrieve := [],
         reason := "No relevant archived content found" }, st2)
    else
      ({ shouldRetrieve := true, contextToRetrieve := relevantContext,
         reason := "Context usage below threshold, retrieving relevant archived items" }, st2)

/-- orchestrator.ts `addMessage`: initialize (cache or fresh), push the
message, add its word count, then evaluate the archive decision first and
the retrieval decision second, executing neither.  Returns the updated
conversations map, the updated state, the two decisions and the resulting
store. -/
def addMessage (convs : List (String × ConversationState))
    (maxWordCount : Int) (conversationId message llm : String)
    (userId : Option String) (st : Store) :
    List (String × ConversationState) × ConversationState ×
      ArchiveDecision × RetrievalDecision × Store :=
  let r0 := initializeConversation convs maxWordCount conversationId llm userId
  let s1 := { r0.1 with
                currentContext := r0.1.currentContext ++ [message],
                totalWordCount := r0.1.totalWordCount + (getWordCount message : Int) }
  let archiveDecision := shouldArchive s1
  let r2 := shouldRetrieve s1 st
  (setConv r0.2 conversationId s1, s1, archiveDecision, r2.1, r2.2)

/-- orchestrator.ts `executeArchive`: no-op on a negative decision; else
call `archiveContext` and only after it succeeds drop the archived prefix
from `currentContext` and subtract its word count.  A thrown store or
validation error propagates before any state field is touched, so the state
and the store come back unchanged. -/
def executeArchive (storeFail : Bool) (decision : ArchiveDecision)
    (s : ConversationState) (st : Store) (now : Int) :
    Except DbError Unit × ConversationState × Store :=
  if decision.shouldArchive = false then (.ok (), s, st)
  else
    match Db.archiveContext storeFail s.conversationId
        decision.messagesToArchive decision.tags s.llm s.userId now st with
    | .error e => (.error e, s, st)
    | .ok r =>
      let archivedWordCount :=
        (decision.messagesToArchive.map getWordCount).sum
      (.ok (),
       { s with
           currentContext := s.currentContext.drop decision.messagesToArchive.length,
           totalWordCount := s.totalWordCount - (archivedWordCount : Int) },
       r.2)

/-- One iteration of the `executeRetrieval` loop:
`unshift(content)` and `totalWordCount += getWordCount(content)`. -/
def retrievalStep (s : ConversationState) (item : Memory) :
    ConversationState :=
  let content := joinSpace item.memories
  { s with currentContext := content :: s.currentContext,
           totalWordCount := s.totalWordCount + (getWordCount content : Int) }

/-- orchestrator.ts `executeRetrieval`: no-op on a negative decision; else
unshift each retrieved item's joined text onto the front of
`currentContext`, in decision order, adding each word count. -/
def executeRetrieval (decision : RetrievalDecision)
    (s : ConversationState) : ConversationState :=
  if decision.shouldRetrieve = false then s
  else decision.contextToRetrieve.foldl retrievalStep s

/-- orchestrator.ts `createSummary`: `NotFound` for an unknown
conversation; fetch archived items with score at least 0.1 (limit 10);
`EmptyInput` when the fetch is empty; else create the summary and re-link
the fetched items. -/
def createSummary (convs : List (String × ConversationState))
    (conversationId summaryText llm : String) (userId : Option String)
    (now : Int) (st : Store) : Except OrchError (Nat × Store) :=
  match lookupConv convs conversationId with
  | none => .error .notFound
  | some _ =>
    let archivedItems := Db.retrieveContext conversationId none (1 / 10) 10 st
    if archivedItems.isEmpty then .error .emptyInput
    else .ok (Db.createSummary conversationId archivedItems summaryText llm
        userId now st)

/-- orchestrator.ts `getConversationStatus`: throws (modelled as
`Except.error .notFound`) for an unknown conversation; otherwise returns
the state and usage-based recommendations.  The method reads the map and
never writes it. -/
def getConversationStatus (convs : List (String × ConversationState))
    (conversationId : String) : Except OrchError ConversationStatus :=
  match lookupConv convs conversationId with
  | none => .error .notFound
  | some s =>
    let usage : ℚ := (s.totalWordCount : ℚ) / (s.maxWordCount : ℚ)
    let recs :=
      (if usage > 9 / 10 then
        ["Context window nearly full - consider archiving more content"]
       else if usage > 7 / 10 then
        ["Consider archiving older messages to free up space"]
       else if usage < 1 / 5 then
        ["Context window has space - consider retrieving relevant archived content"]
       else []) ++
      (if s.archivedContext.length > 20 then
        ["Consider creating summaries of archived content"]
       else [])
    .ok { state := s, recommendations := recs }

end Orchestrator

/-! ### Concrete values used by witnesses and counterexamples -/

/-- An empty store. -/
def exStore : Store :=
  { items := [], states := [], nextId := 0 }

/-- An archived item carrying a high persisted relevance score. -/
def exMemA : Memory :=
  { id := 10, memories := ["alpha"], timestamp := 5, llm := "claude",
    userId := none, conversationId := some "c",
    contextType := some ContextType.archived, relevanceScore := some (9 / 10),
    tags := [], parentContextId := none, messageIndex := none,
    wordCount := some 1, summaryText := none }

/-- An archived item carrying a lower persisted relevance score. -/
def exMemB : Memory :=
  { id := 11, memories := ["beta"], timestamp := 3, llm := "claude",
    userId := none, conversationId := some "c",
    contextType := some ContextType.archived, relevanceScore := some (1 / 2),
    tags := [], parentContextId := none, messageIndex := none,
    wordCount := some 1, summaryText := none }

/-- An archived item that has never been through a scoring pass. -/
def exMemUnscored : Memory :=
  { id := 0, memories := ["stored text"], timestamp := 0, llm := "claude",
    userId := none, conversationId := some "c",
    contextType := some ContextType.archived, relevanceScore := none,
    tags := [], parentContextId := none, messageIndex := some 0,
    wordCount := some 2, summaryText := none }

/-- A store holding only the never-scored archived item. -/
def exStoreUnscored : Store :=
  { items := [exMemUnscored], states := [], nextId := 1 }

/-- A positive retrieval decision whose items come back from the scorer in
descending score order: `exMemA` (score 0.9) first, `exMemB` (0.5) second. -/
def exRetrDecision : RetrievalDecision :=
  { shouldRetrieve := true, contextToRetrieve := [exMemA, exMemB],
    reason := "r" }

/-- A positive archive decision. -/
def exArchDecision : ArchiveDecision :=
  { shouldArchive := true, messagesToArchive := ["a b"], tags := ["general"],
    reason := "r" }

/-- A conversation state with one old message in the live window. -/
def exRetrState : ConversationState :=
  { conversationId := "c", currentContext := ["old"], archivedContext := [],
    summaries := [], totalWordCount := 1, maxWordCount := 1000,
    llm := "claude", userId := none }

/-- A state satisfying the word-count invariant whose usage ratio 5/4 is
above the archive threshold. -/
def exInvState : ConversationState :=
  { conversationId := "c", currentContext := ["a b", "c d e"],
    archivedContext := [], summaries := [], totalWordCount := 5,
    maxWordCount := 4, llm := "claude", userId := none }

/-- A state at 799 of 1000 words. -/
def exState799 : ConversationState :=
  { conversationId := "c", currentContext := ["m"], archivedContext := [],
    summaries := [], totalWordCount := 799, maxWordCount := 1000,
    llm := "claude", userId := none }

/-- A state at 800 of 1000 words. -/
def exState800 : ConversationState :=
  { conversationId := "c", currentContext := ["m"], archivedContext := [],
    summaries := [], totalWordCount := 800, maxWordCount := 1000,
    llm := "claude", userId := none }

/-- A state at 2 of 100 words (below the retrieve threshold) whose live
text fully overlaps `exMemRaw`. -/
def exLowUsageState : ConversationState :=
  { conversationId := "c", currentContext := ["alpha beta"],
    archivedContext := [], summaries := [], totalWordCount := 2,
    maxWordCount := 100, llm := "claude", userId := none }

/-- A not-yet-scored archived item whose text equals the live context of
`exLowUsageState`. -/
def exMemRaw : Memory :=
  { id := 0, memories := ["alpha beta"], timestamp := 0, llm := "claude",
    userId := none, conversationId := some "c",
    contextType := some ContextType.archived, relevanceScore := none,
    tags := [], parentContextId := none, messageIndex := some 0,
    wordCount := some 2, summaryText := none }

/-- A store holding only `exMemRaw`. -/
def exStoreRaw : Store :=
  { items := [exMemRaw], states := [], nextId := 1 }

/-- A conversations map in which conversation `"c"` is known. -/
def exConvs : List (String × ConversationState) :=
  [("c", Orchestrator.freshState "c" "claude" none 1000)]

/-- The store produced by a successful `archiveContext` of `["hello"]` into
the empty store. -/
def exStoreAfterArchive : Store :=
  ((Db.archiveContext false "c" ["hello"] [] "claude" none 0 exStore).toOption.getD
    (0, exStore)).2

/-! ### Helper lemmas -/

theorem jsSplitWsAux_ne_nil (l : List Char) :
    ∀ cur inWs, jsSplitWsAux l cur inWs ≠ [] := by
  induction l with
  | nil => intro cur inWs; simp [jsSplitWsAux]
  | cons c rest ih =>
    intro cur inWs
    simp only [jsSplitWsAux]
    split
    · split
      · exact ih cur true
      · simp
    · exact ih (c :: cur) false

theorem tokenFinset_nonempty (s : String) : (tokenFinset s).Nonempty := by
  unfold tokenFinset jsSplitWs
  rcases List.exists_cons_of_ne_nil
      (jsSplitWsAux_ne_nil (s.data.map Char.toLower) [] false) with ⟨t, ts, h⟩
  exact ⟨t, by simp [h]⟩

theorem jaccardScore_eq_one_of_token_eq (q t : String)
    (h : tokenFinset q = tokenFinset t) : jaccardScore q t = 1 := by
  unfold jaccardScore
  rw [h, Finset.inter_self, Finset.union_self]
  have hc : 0 < (tokenFinset t).card :=
    Finset.card_pos.mpr (tokenFinset_nonempty t)
  rw [div_self (by exact_mod_cast hc.ne')]

theorem jaccardScore_eq_zero_of_inter_empty (q t : String)
    (h : tokenFinset q ∩ tokenFinset t = ∅) : jaccardScore q t = 0 := by
  unfold jaccardScore
  rw [h]
  simp

theorem jaccardScore_nonneg (q t : String) : 0 ≤ jaccardScore q t := by
  unfold jaccardScore
  positivity

theorem jaccardScore_le_one (q t : String) : jaccardScore q t ≤ 1 := by
  unfold jaccardScore
  have hc : 0 < ((tokenFinset q ∪ tokenFinset t).card : ℚ) := by
    exact_mod_cast Finset.card_pos.mpr
      ((tokenFinset_nonempty q).mono Finset.subset_union_left)
  rw [div_le_one hc]
  exact_mod_cast Finset.card_le_card Finset.inter_subset_union

/-- The `KeywordScorer` per-item score agrees with the db.ts
`scoreRelevance` per-item score: the union of the token sets is never
empty (JS `split` never yields an empty array), and the raw Jaccard value
already lies in `[0, 1]`, so the clamp is the identity. -/
theorem keywordScorerItemScore_eq_jaccardScore (q t : String) :
    keywordScorerItemScore q t = jaccardScore q t := by
  unfold keywordScorerItemScore
  have hne : 0 < (tokenFinset q ∪ tokenFinset t).card :=
    Finset.card_pos.mpr ((tokenFinset_nonempty q).mono Finset.subset_union_left)
  rw [if_pos hne]
  have h1 : ((tokenFinset q ∩ tokenFinset t).card : ℚ) /
      ((tokenFinset q ∪ tokenFinset t).card : ℚ) = jaccardScore q t := rfl
  rw [h1, min_eq_right (jaccardScore_le_one q t),
      max_eq_right (jaccardScore_nonneg q t)]

theorem matchesRetrieve_true_iff (c : String) (tg : Option (List String))
    (ms : ℚ) (m : Memory) :
    Db.matchesRetrieve c tg ms m = true ↔
      m.conversationId = some c ∧ m.contextType = some ContextType.archived ∧
        Db.scoreMatches ms m = true ∧ Db.tagsMatch tg m = true := by
  unfold Db.matchesRetrieve
  simp [Bool.and_eq_true, and_assoc]

theorem retrieveContext_mem (c : String) (tg : Option (List String))
    (ms : ℚ) (lim : Nat) (st : Store) :
    ∀ m ∈ Db.retrieveContext c tg ms lim st,
      m ∈ st.items ∧ Db.matchesRetrieve c tg ms m = true := by
  intro m hm
  unfold Db.retrieveContext at hm
  have h1 := List.mem_of_mem_take hm
  rw [List.mem_insertionSort] at h1
  exact (List.mem_filter.mp h1).imp_left id

theorem retrieveContext_length (c : String) (tg : Option (List String))
    (ms : ℚ) (lim : Nat) (st : Store) :
    (Db.retrieveContext c tg ms lim st).length ≤ lim := by
  unfold Db.retrieveContext
  rw [List.length_take]
  exact min_le_left _ _

theorem retrieveContext_sorted (c : String) (tg : Option (List String))
    (ms : ℚ) (lim : Nat) (st : Store) :
    List.Sorted Db.retrieveBefore (Db.retrieveContext c tg ms lim st) :=
  List.Pairwise.sublist (List.take_sublist _ _)
    (List.sorted_insertionSort Db.retrieveBefore _)

theorem retrieveContext_score (c : String) (tg : Option (List String))
    (ms : ℚ) (lim : Nat) (st : Store) :
    ∀ m ∈ Db.retrieveContext c tg ms lim st,
      ∃ r, m.relevanceScore = some r ∧ ms ≤ r := by
  intro m hm
  have h := (matchesRetrieve_true_iff c tg ms m).mp
    (retrieveContext_mem c tg ms lim st m hm).2
  have hs := h.2.2.1
  unfold Db.scoreMatches at hs
  rcases hr : m.relevanceScore with _ | r
  · rw [hr] at hs; cases hs
  · rw [hr] at hs; exact ⟨r, rfl, of_decide_eq_true hs⟩

theorem retrieveContext_eq_nil_of_unscored (c : String)
    (tg : Option (List String)) (ms : ℚ) (lim : Nat) (st : Store)
    (h : ∀ m ∈ st.items, m.relevanceScore = none) :
    Db.retrieveContext c tg ms lim st = [] := by
  unfold Db.retrieveContext
  have hf : st.items.filter (Db.matchesRetrieve c tg ms) = [] := by
    rw [List.filter_eq_nil_iff]
    intro m hm hmt
    have hs := ((matchesRetrieve_true_iff c tg ms m).mp hmt).2.2.1
    unfold Db.scoreMatches at hs
    rw [h m hm] at hs
    cases hs
  rw [hf]
  simp [List.insertionSort]

theorem scoreRelevance_persists (c ctx : String) (st : Store) :
    ∀ m ∈ ((Db.scoreRelevance c ctx st).2).items,
      m.conversationId = some c → m.contextType = some ContextType.archived →
      m.relevanceScore = some (jaccardScore ctx (joinSpace m.memories)) := by
  intro m hm h1 h2
  unfold Db.scoreRelevance at hm
  simp only [List.mem_map] at hm
  rcases hm with ⟨m0, _, hm0⟩
  by_cases ht : Db.scoreTarget c m0 = true
  · rw [if_pos ht] at hm0
    subst hm0
    rfl
  · rw [if_neg ht] at hm0
    subst hm0
    exact absurd (by unfold Db.scoreTarget; simp [h1, h2]) ht

theorem archiveContext_ok_shape (c : String) (msgs tags : List String)
    (llm : String) (uid : Option String) (now : Int) (st : Store)
    (n : Nat) (st2 : Store)
    (h : Db.archiveContext false c msgs tags llm uid now st = .ok (n, st2)) :
    ∃ newItems, st2.items = st.items ++ newItems ∧
      ∀ m ∈ newItems, m.relevanceScore = none := by
  unfold Db.archiveContext at h
  repeat' split at h
  any_goals exact Except.noConfusion h
  injection h with hpair
  injection hpair with hn hst
  subst hst
  refine ⟨_, rfl, ?_⟩
  intro m hm
  simp only [List.mem_map] at hm
  obtain ⟨p, _, hp⟩ := hm
  subst hp
  rfl

theorem archiveContext_storeFail_isError (c : String)
    (msgs tags : List String) (llm : String) (uid : Option String)
    (now : Int) (st : Store) :
    ∃ e, Db.archiveContext true c msgs tags llm uid now st = .error e := by
  unfold Db.archiveContext
  repeat' split
  all_goals first
    | exact ⟨_, rfl⟩
    | (exfalso; simp_all)

theorem lookupConv_invariant (convs : List (String × ConversationState))
    (id : String) (s : ConversationState)
    (h : Orchestrator.lookupConv convs id = some s)
    (hAll : ∀ p ∈ convs, WordCountInv p.2) : WordCountInv s := by
  induction convs with
  | nil => cases h
  | cons a rest ih =>
    rw [Orchestrator.lookupConv] at h
    by_cases hk : a.1 = id
    · rw [if_pos hk] at h
      injection h with h
      exact h ▸ hAll a (by simp)
    · rw [if_neg hk] at h
      exact ih h (fun p hp => hAll p (by simp [hp]))

theorem drop_length_take {α : Type} (l : List α) (k : Nat) :
    l.drop ((l.take k).length) = l.drop k := by
  rw [List.length_take]
  rcases le_total k l.length with h | h
  · rw [min_eq_left h]
  · rw [min_eq_right h, List.drop_eq_nil_of_le le_rfl,
        List.drop_eq_nil_of_le h]

theorem sum_wc_take_drop (l : List String) (k : Nat) :
    ((l.map getWordCount).sum : Int) =
      (((l.take k).map getWordCount).sum : Int) +
        (((l.drop k).map getWordCount).sum : Int) := by
  conv_lhs => rw [← List.take_append_drop k l]
  rw [List.map_append, List.sum_append]
  push_cast
  ring

theorem executeRetrieval_foldl (items : List Memory)
    (s : ConversationState) :
    List.foldl Orchestrator.retrievalStep s items =
      { s with
          currentContext :=
            (items.map (fun m => joinSpace m.memories)).reverse ++ s.currentContext,
          totalWordCount :=
            s.totalWordCount +
              ((items.map (fun m => getWordCount (joinSpace m.memories))).sum : Int) } := by
  induction items generalizing s with
  | nil => simp
  | cons a rest ih =>
    rw [List.foldl_cons, ih]
    unfold Orchestrator.retrievalStep
    cases s
    simp only [List.map_cons, List.reverse_cons, List.sum_cons,
      ConversationState.mk.injEq, List.append_assoc, List.singleton_append,
      true_and, and_true]
    push_cast
    ring

theorem createSummaryDb_post (cid stext llm : String) (uid : Option String)
    (now : Int) (st : Store) (items : List Memory)
    (hsub : ∀ m ∈ items, m ∈ st.items) :
    (∃ doc ∈ ((Db.createSummary cid items stext llm uid now st).2).items,
        doc.contextType = some ContextType.summary ∧
        doc.summaryText = some stext ∧ doc.conversationId = some cid) ∧
    (∀ m ∈ items,
        { m with contextType := some ContextType.archived,
                 parentContextId :=
                   some (Db.createSummary cid items stext llm uid now st).1 } ∈
          ((Db.createSummary cid items stext llm uid now st).2).items) := by
  unfold Db.createSummary
  constructor
  · exact ⟨_, List.mem_append_right _ (List.mem_singleton.mpr rfl),
      rfl, rfl, rfl⟩
  · intro m hm
    apply List.mem_append_left
    have hid : m.id ∈ items.map (fun m => m.id) := List.mem_map_of_mem _ hm
    have hupd : (fun mm : Memory =>
        if mm.id ∈ items.map (fun m => m.id) then
          { mm with contextType := some ContextType.archived,
                    parentContextId := some st.nextId }
        else mm) m =
        { m with contextType := some ContextType.archived,
                 parentContextId := some st.nextId } := if_pos hid
    rw [← hupd]
    exact List.mem_map_of_mem _ (hsub m hm)

theorem shouldArchive_true_messages (s : ConversationState)
    (h : (Orchestrator.shouldArchive s).shouldArchive = true) :
    (Orchestrator.shouldArchive s).messagesToArchive =
      s.currentContext.take
        (Orchestrator.archiveSliceLen s.currentContext.length) := by
  unfold Orchestrator.shouldArchive at h ⊢
  by_cases hc : ((s.totalWordCount : ℚ) / (s.maxWordCount : ℚ) < 4 / 5)
  · simp [hc] at h
  · simp [hc]

/-! ### Claim theorems -/

/-- C6 (amended): the keyword strategy computes Jaccard similarity
`|intersection| / |union|` of the lower-cased whitespace-tokenized word
sets of query and item text; the score is exactly 1.0 for identical token
sets and exactly 0.0 for disjoint ones.  For two empty strings JS `split`
yields the singleton token set containing the empty token on both sides,
so the score is exactly 1.0 (a well-defined value, never NaN or undefined),
not 0.0 as the claim stated.  The `KeywordScorer` per-item score coincides
with the db.ts `scoreRelevance` per-item score on every input. -/
theorem keyword_scorer_bounds (q t : String) :
    (tokenFinset q = tokenFinset t → jaccardScore q t = 1) ∧
    (tokenFinset q ∩ tokenFinset t = ∅ → jaccardScore q t = 0) ∧
    (q = "" → t = "" → jaccardScore q t = 1) ∧
    keywordScorerItemScore q t = jaccardScore q t := by
  refine ⟨jaccardScore_eq_one_of_token_eq q t,
          jaccardScore_eq_zero_of_inter_empty q t, ?_,
          keywordScorerItemScore_eq_jaccardScore q t⟩
  intro hq ht
  subst hq
  subst ht
  exact jaccardScore_eq_one_of_token_eq "" "" rfl

/-- C6 counterexample: on two empty strings both the db.ts score and the
KeywordScorer score evaluate to 1, not 0. -/
theorem keyword_scorer_empty_strings_counterexample :
    jaccardScore "" "" = 1 ∧ jaccardScore "" "" ≠ 0 ∧
      keywordScorerItemScore "" "" = 1 := by
  have h1 : jaccardScore "" "" = 1 := jaccardScore_eq_one_of_token_eq "" "" rfl
  exact ⟨h1, by rw [h1]; norm_num,
         by rw [keywordScorerItemScore_eq_jaccardScore, h1]⟩

/-- C6 witness: identical token sets (up to order) score 1; disjoint token
sets score 0. -/
theorem keyword_scorer_bounds_witness :
    (tokenFinset "a b" = tokenFinset "b a" ∧ jaccardScore "a b" "b a" = 1) ∧
    (tokenFinset "x" ∩ tokenFinset "y" = ∅ ∧ jaccardScore "x" "y" = 0) :=
  ⟨⟨by decide, (keyword_scorer_bounds "a b" "b a").1 (by decide)⟩,
   ⟨by decide, (keyword_scorer_bounds "x" "y").2.1 (by decide)⟩⟩

/-- C3: the archive decision is negative exactly when
`totalWordCount / maxWordCount < 0.8`; a positive decision selects exactly
the oldest `Math.floor(len * 0.3)` messages, i.e. a `take`-prefix of
`currentContext` (which is kept oldest-first); at 799 of 1000 words no
archive is triggered, at 800 of 1000 it is. -/
theorem archive_policy (s : ConversationState) :
    ((Orchestrator.shouldArchive s).shouldArchive = false ↔
       (s.totalWordCount : ℚ) / (s.maxWordCount : ℚ) < 4 / 5) ∧
    ((Orchestrator.shouldArchive s).shouldArchive = true →
       (Orchestrator.shouldArchive s).messagesToArchive =
         s.currentContext.take
           (Orchestrator.archiveSliceLen s.currentContext.length)) ∧
    (s.totalWordCount = 799 → s.maxWordCount = 1000 →
       (Orchestrator.shouldArchive s).shouldArchive = false) ∧
    (s.totalWordCount = 800 → s.maxWordCount = 1000 →
       (Orchestrator.shouldArchive s).shouldArchive = true) := by
  have hiff : (Orchestrator.shouldArchive s).shouldArchive = false ↔
      (s.totalWordCount : ℚ) / (s.maxWordCount : ℚ) < 4 / 5 := by
    unfold Orchestrator.shouldArchive
    by_cases hc : ((s.totalWordCount : ℚ) / (s.maxWordCount : ℚ) < 4 / 5) <;>
      simp [hc]
  refine ⟨hiff, fun h => shouldArchive_true_messages s h, ?_, ?_⟩
  · intro h1 h2
    rw [hiff, h1, h2]
    norm_num
  · intro h1 h2
    have hn : ¬ ((s.totalWordCount : ℚ) / (s.maxWordCount : ℚ) < 4 / 5) := by
      rw [h1, h2]
      norm_num
    cases hb : (Orchestrator.shouldArchive s).shouldArchive
    · exact absurd (hiff.mp hb) hn
    · rfl

/-- C3 witness: the 799/1000 and 800/1000 boundary states. -/
theorem archive_policy_witness :
    (Orchestrator.shouldArchive exState799).shouldArchive = false ∧
    (Orchestrator.shouldArchive exState800).shouldArchive = true :=
  ⟨(archive_policy exState799).2.2.1 rfl rfl,
   (archive_policy exState800).2.2.2 rfl rfl⟩

/-- C2: for a positive archive decision, a failing store write inside
`executeArchive` makes the call propagate the error while
`currentContext`, `totalWordCount` (the whole state) and the store are
exactly what they were before the call. -/
theorem archive_rollback (d : ArchiveDecision) (s : ConversationState)
    (st : Store) (now : Int) (h : d.shouldArchive = true) :
    ∃ e, Orchestrator.executeArchive true d s st now = (.error e, s, st) := by
  obtain ⟨e, he⟩ := archiveContext_storeFail_isError s.conversationId
    d.messagesToArchive d.tags s.llm s.userId now st
  refine ⟨e, ?_⟩
  unfold Orchestrator.executeArchive
  rw [if_neg (by simp [h]), he]

/-- C2 witness: a concrete positive decision against a concrete state and
store. -/
theorem archive_rollback_witness :
    exArchDecision.shouldArchive = true ∧
    ∃ e, Orchestrator.executeArchive true exArchDecision exInvState exStore 0 =
      (.error e, exInvState, exStore) :=
  ⟨rfl, archive_rollback exArchDecision exInvState exStore 0 rfl⟩

/-- C5 (amended): `executeRetrieval` unshifts the retrieved items' joined
texts one at a time, so the prepended block sits at the front of
`currentContext` in reverse scorer order — the highest-relevance item ends
up deepest in the block, adjacent to the retained old context, not closest
to the front; `totalWordCount` increases by the sum of the inserted texts'
word counts. -/
theorem retrieval_insertion (d : RetrievalDecision) (s : ConversationState)
    (h : d.shouldRetrieve = true) :
    (Orchestrator.executeRetrieval d s).currentContext =
      (d.contextToRetrieve.map (fun m => joinSpace m.memories)).reverse ++
        s.currentContext ∧
    (Orchestrator.executeRetrieval d s).totalWordCount =
      s.totalWordCount +
        ((d.contextToRetrieve.map
            (fun m => getWordCount (joinSpace m.memories))).sum : Int) := by
  unfold Orchestrator.executeRetrieval
  rw [if_neg (by simp [h]), executeRetrieval_foldl]
  exact ⟨rfl, rfl⟩

/-- C5 counterexample: for the decision listing `exMemA` (score 0.9)
before `exMemB` (score 0.5), the live window comes out
`["beta", "alpha", "old"]` — the highest-relevance text `"alpha"` is not
closest to the front, refuting the claimed scorer-order insertion. -/
theorem retrieval_insertion_counterexample :
    (Orchestrator.executeRetrieval exRetrDecision exRetrState).currentContext =
      ["beta", "alpha", "old"] ∧
    (Orchestrator.executeRetrieval exRetrDecision exRetrState).currentContext ≠
      ["alpha", "beta", "old"] := by
  decide

/-- C5 witness: the amended statement evaluated on the concrete decision. -/
theorem retrieval_insertion_witness :
    exRetrDecision.shouldRetrieve = true ∧
    ((Orchestrator.executeRetrieval exRetrDecision exRetrState).currentContext =
        (exRetrDecision.contextToRetrieve.map
            (fun m => joinSpace m.memories)).reverse ++
          exRetrState.currentContext ∧
      (Orchestrator.executeRetrieval exRetrDecision exRetrState).totalWordCount =
        exRetrState.totalWordCount +
          ((exRetrDecision.contextToRetrieve.map
              (fun m => getWordCount (joinSpace m.memories))).sum : Int)) :=
  ⟨rfl, retrieval_insertion exRetrDecision exRetrState rfl⟩

/-- C7 (code evaluated at the failing input): `getConversationStatus` on an
unknown conversation id throws
`Error("Conversation ... not found")` — modelled as an error result — rather
than returning the null/absent result the claim (and the repository's own
review documentation) prescribe.  The method reads the conversations map
without writing it, so no state is created. -/
theorem status_unknown_conversation_throws :
    Orchestrator.getConversationStatus [] "nonexistent" =
      .error Orchestrator.OrchError.notFound := rfl

/-- C9 (code evaluated at the failing input): `addMessage` appends the
text, adds its word count and evaluates both decisions without executing
them, but performs no store write at all: the conversation-state
collection stays empty and the whole store is returned unchanged — the
claimed persistence of the updated state does not happen. -/
theorem addmessage_does_not_persist :
    (Orchestrator.addMessage [] 8000 "conv-1" "one two three" "claude" none
        exStore).2.1.currentContext = ["one two three"] ∧
    (Orchestrator.addMessage [] 8000 "conv-1" "one two three" "claude" none
        exStore).2.1.totalWordCount = 3 ∧
    (Orchestrator.addMessage [] 8000 "conv-1" "one two three" "claude" none
        exStore).2.2.2.2.states = [] ∧
    (Orchestrator.addMessage [] 8000 "conv-1" "one two three" "claude" none
        exStore).2.2.2.2 = exStore := by
  have hmain : (Orchestrator.addMessage [] 8000 "conv-1" "one two three"
      "claude" none exStore).2.2.2.2 = exStore := by
    show (Orchestrator.shouldRetrieve
        { conversationId := "conv-1",
          currentContext := [] ++ ["one two three"],
          archivedContext := [], summaries := [],
          totalWordCount := 0 + (getWordCount "one two three" : Int),
          maxWordCount := 8000, llm := "claude", userId := none }
        exStore).2 = exStore
    unfold Orchestrator.shouldRetrieve
    have hwc : getWordCount "one two three" = 3 := by decide
    norm_num [hwc, Db.scoreRelevance, Db.retrieveContext, List.insertionSort,
      exStore]
  exact ⟨by decide, by decide, by rw [hmain]; rfl, hmain⟩

/-- C1: the word-count invariant `totalWordCount = Σ wordcount(m)` over
`currentContext` is preserved by `addMessage` (for a cached state drawn
from a map of invariant-satisfying states, or a fresh one), by
`executeArchive` whenever its decision was computed by `shouldArchive`
from the same unmodified state — both on store success and on store
failure, where the state comes back untouched — and by `executeRetrieval`
for every decision. -/
theorem wordcount_invariant
    (convs : List (String × ConversationState)) (maxWC : Int)
    (cid msg llm : String) (uid : Option String) (st : Store)
    (s : ConversationState) (d : RetrievalDecision) (fail : Bool) (now : Int)
    (hConvs : ∀ p ∈ convs, WordCountInv p.2) (hs : WordCountInv s) :
    WordCountInv (Orchestrator.addMessage convs maxWC cid msg llm uid st).2.1 ∧
    WordCountInv
      (Orchestrator.executeArchive fail (Orchestrator.shouldArchive s) s st
        now).2.1 ∧
    WordCountInv (Orchestrator.executeRetrieval d s) := by
  refine ⟨?_, ?_, ?_⟩
  · have h0 : WordCountInv
        (Orchestrator.initializeConversation convs maxWC cid llm uid).1 := by
      unfold Orchestrator.initializeConversation
      rcases hl : Orchestrator.lookupConv convs cid with _ | s0
      · simp [Orchestrator.freshState, WordCountInv]
      · exact lookupConv_invariant convs cid s0 hl hConvs
    show WordCountInv
      { (Orchestrator.initializeConversation convs maxWC cid llm uid).1 with
          currentContext :=
            (Orchestrator.initializeConversation convs maxWC cid llm
                uid).1.currentContext ++ [msg],
          totalWordCount :=
            (Orchestrator.initializeConversation convs maxWC cid llm
                uid).1.totalWordCount + (getWordCount msg : Int) }
    unfold WordCountInv at h0 ⊢
    dsimp only
    rw [List.map_append, List.sum_append, h0]
    push_cast
    simp
  · unfold Orchestrator.executeArchive
    by_cases hd : (Orchestrator.shouldArchive s).shouldArchive = false
    · rw [if_pos hd]
      exact hs
    · rw [if_neg hd]
      rcases har : Db.archiveContext fail s.conversationId
          (Orchestrator.shouldArchive s).messagesToArchive
          (Orchestrator.shouldArchive s).tags s.llm s.userId now st with e | r
      · exact hs
      · have hmsg := shouldArchive_true_messages s (by
          cases hb : (Orchestrator.shouldArchive s).shouldArchive
          · exact absurd hb hd
          · rfl)
        unfold WordCountInv at hs ⊢
        dsimp only
        rw [hmsg, drop_length_take]
        rw [sum_wc_take_drop s.currentContext
          (Orchestrator.archiveSliceLen s.currentContext.length)] at hs
        omega
  · unfold Orchestrator.executeRetrieval
    by_cases hd : d.shouldRetrieve = false
    · rw [if_pos hd]
      exact hs
    · rw [if_neg hd, executeRetrieval_foldl]
      unfold WordCountInv at hs ⊢
      dsimp only
      simp only [List.map_append, List.sum_append, List.map_reverse,
        List.sum_reverse, List.map_map, Function.comp_def]
      push_cast at hs ⊢
      omega

/-- C1 witness: the invariant evaluated through a concrete addMessage, a
concrete archive execution and a concrete retrieval execution. -/
theorem wordcount_invariant_witness :
    ((∀ p ∈ ([] : List (String × ConversationState)), WordCountInv p.2) ∧
      WordCountInv exInvState) ∧
    WordCountInv
      (Orchestrator.addMessage [] 8000 "c" "one two" "claude" none
        exStore).2.1 ∧
    WordCountInv
      (Orchestrator.executeArchive false
        (Orchestrator.shouldArchive exInvState) exInvState exStore 0).2.1 ∧
    WordCountInv (Orchestrator.executeRetrieval exRetrDecision exInvState) :=
  ⟨⟨by simp, by decide⟩,
   (wordcount_invariant [] 8000 "c" "one two" "claude" none exStore
      exInvState exRetrDecision false 0 (by simp) (by decide)).1,
   (wordcount_invariant [] 8000 "c" "one two" "claude" none exStore
      exInvState exRetrDecision false 0 (by simp) (by decide)).2.1,
   (wordcount_invariant [] 8000 "c" "one two" "claude" none exStore
      exInvState exRetrDecision false 0 (by simp) (by decide)).2.2⟩

/-- C4: when `totalWordCount / maxWordCount > 0.3` the retrieval decision
is negative and the store is untouched; otherwise the scorer is run over
all archived items of the conversation against the joined current context
and the updated scores are persisted (every archived item of the
conversation in the resulting store carries exactly the Jaccard score of
its own text against that query), and the decision carries the
`retrieveContext` result: at most 5 items, each with a persisted
relevance score of at least 0.2, sorted by descending score with ties
broken by most-recent timestamp. -/
theorem retrieve_policy (s : ConversationState) (st : Store) :
    ((s.totalWordCount : ℚ) / (s.maxWordCount : ℚ) > 3 / 10 →
      Orchestrator.shouldRetrieve s st =
        ({ shouldRetrieve := false, contextToRetrieve := [],
           reason := "Above retrieve threshold" }, st)) ∧
    (¬ (s.totalWordCount : ℚ) / (s.maxWordCount : ℚ) > 3 / 10 →
      (Orchestrator.shouldRetrieve s st).2 =
          (Db.scoreRelevance s.conversationId (joinSpace s.currentContext)
            st).2 ∧
      (∀ m ∈ ((Db.scoreRelevance s.conversationId
            (joinSpace s.currentContext) st).2).items,
          m.conversationId = some s.conversationId →
          m.contextType = some ContextType.archived →
          m.relevanceScore = some (jaccardScore (joinSpace s.currentContext)
            (joinSpace m.memories))) ∧
      (Orchestrator.shouldRetrieve s st).1.contextToRetrieve =
          Db.retrieveContext s.conversationId none (2 / 10) 5
            ((Db.scoreRelevance s.conversationId (joinSpace s.currentContext)
              st).2) ∧
      (Orchestrator.shouldRetrieve s st).1.contextToRetrieve.length ≤ 5 ∧
      (∀ m ∈ (Orchestrator.shouldRetrieve s st).1.contextToRetrieve,
          ∃ r, m.relevanceScore = some r ∧ 2 / 10 ≤ r) ∧
      List.Sorted Db.retrieveBefore
        (Orchestrator.shouldRetrieve s st).1.contextToRetrieve) := by
  constructor
  · intro hc
    unfold Orchestrator.shouldRetrieve
    simp [hc]
  · intro hc
    have hsr : Orchestrator.shouldRetrieve s st =
        (if (Db.retrieveContext s.conversationId none (2 / 10) 5
              ((Db.scoreRelevance s.conversationId
                (joinSpace s.currentContext) st).2)).isEmpty
         then ({ shouldRetrieve := false, contextToRetrieve := [],
                 reason := "No relevant archived content found" },
               (Db.scoreRelevance s.conversationId
                 (joinSpace s.currentContext) st).2)
         else ({ shouldRetrieve := true,
                 contextToRetrieve := Db.retrieveContext s.conversationId
                   none (2 / 10) 5
                   ((Db.scoreRelevance s.conversationId
                     (joinSpace s.currentContext) st).2),
                 reason := "Context usage below threshold, retrieving relevant archived items" },
               (Db.scoreRelevance s.conversationId
                 (joinSpace s.currentContext) st).2)) := by
      unfold Orchestrator.shouldRetrieve
      simp [hc]
    have h3 : (Orchestrator.shouldRetrieve s st).1.contextToRetrieve =
        Db.retrieveContext s.conversationId none (2 / 10) 5
          ((Db.scoreRelevance s.conversationId (joinSpace s.currentContext)
            st).2) := by
      rw [hsr]
      split
      next hre => exact (List.isEmpty_iff.mp hre).symm
      next hre => rfl
    refine ⟨?_, scoreRelevance_persists s.conversationId
      (joinSpace s.currentContext) st, h3, ?_, ?_, ?_⟩
    · rw [hsr]
      split <;> rfl
    · rw [h3]
      exact retrieveContext_length s.conversationId none (2 / 10) 5 _
    · rw [h3]
      exact retrieveContext_score s.conversationId none (2 / 10) 5 _
    · rw [h3]
      exact retrieveContext_sorted s.conversationId none (2 / 10) 5 _

/-- C4 witness: a conversation at 2 of 100 words with one archived item
whose text equals the live context. -/
theorem retrieve_policy_witness :
    (¬ (exLowUsageState.totalWordCount : ℚ) /
        (exLowUsageState.maxWordCount : ℚ) > 3 / 10) ∧
    ((Orchestrator.shouldRetrieve exLowUsageState exStoreRaw).2 =
        (Db.scoreRelevance exLowUsageState.conversationId
          (joinSpace exLowUsageState.currentContext) exStoreRaw).2 ∧
      (∀ m ∈ ((Db.scoreRelevance exLowUsageState.conversationId
            (joinSpace exLowUsageState.currentContext) exStoreRaw).2).items,
          m.conversationId = some exLowUsageState.conversationId →
          m.contextType = some ContextType.archived →
          m.relevanceScore = some (jaccardScore
            (joinSpace exLowUsageState.currentContext)
            (joinSpace m.memories))) ∧
      (Orchestrator.shouldRetrieve exLowUsageState
          exStoreRaw).1.contextToRetrieve =
          Db.retrieveContext exLowUsageState.conversationId none (2 / 10) 5
            ((Db.scoreRelevance exLowUsageState.conversationId
              (joinSpace exLowUsageState.currentContext) exStoreRaw).2) ∧
      (Orchestrator.shouldRetrieve exLowUsageState
          exStoreRaw).1.contextToRetrieve.length ≤ 5 ∧
      (∀ m ∈ (Orchestrator.shouldRetrieve exLowUsageState
          exStoreRaw).1.contextToRetrieve,
          ∃ r, m.relevanceScore = some r ∧ 2 / 10 ≤ r) ∧
      List.Sorted Db.retrieveBefore
        (Orchestrator.shouldRetrieve exLowUsageState
          exStoreRaw).1.contextToRetrieve) :=
  ⟨by norm_num [exLowUsageState],
   (retrieve_policy exLowUsageState exStoreRaw).2
     (by norm_num [exLowUsageState])⟩

/-- C8 (amended): `createSummary` fails with NotFound exactly when the
conversation id is unknown; for a known conversation it fails with
EmptyInput exactly when the score-filtered fetch (persisted relevance
score at least 0.1, limit 10) comes back empty — archived items that have
never been scored do not count; on success one summary item is created
and every fetched item is re-linked to it via `parentContextId`. -/
theorem create_summary_conditions
    (convs : List (String × ConversationState)) (cid stext llm : String)
    (uid : Option String) (now : Int) (st : Store) :
    (Orchestrator.createSummary convs cid stext llm uid now st =
        .error Orchestrator.OrchError.notFound ↔
      Orchestrator.lookupConv convs cid = none) ∧
    (Orchestrator.lookupConv convs cid ≠ none →
      (Orchestrator.createSummary convs cid stext llm uid now st =
          .error Orchestrator.OrchError.emptyInput ↔
        Db.retrieveContext cid none (1 / 10) 10 st = [])) ∧
    (∀ sid st2,
      Orchestrator.createSummary convs cid stext llm uid now st =
          .ok (sid, st2) →
      (∃ doc ∈ st2.items, doc.contextType = some ContextType.summary ∧
          doc.summaryText = some stext ∧ doc.conversationId = some cid) ∧
      (∀ m ∈ Db.retrieveContext cid none (1 / 10) 10 st,
          { m with contextType := some ContextType.archived,
                   parentContextId := some sid } ∈ st2.items)) := by
  unfold Orchestrator.createSummary
  rcases hl : Orchestrator.lookupConv convs cid with _ | s0
  · refine ⟨by simp, fun hk => absurd rfl hk, ?_⟩
    intro sid st2 h
    exact Except.noConfusion h
  · by_cases hre : (Db.retrieveContext cid none (1 / 10) 10 st).isEmpty
    · rw [if_pos hre]
      refine ⟨by simp, ?_, ?_⟩
      · exact fun _ => ⟨fun _ => List.isEmpty_iff.mp hre, fun _ => rfl⟩
      · intro sid st2 h
        exact Except.noConfusion h
    · rw [if_neg hre]
      have hne : Db.retrieveContext cid none (1 / 10) 10 st ≠ [] := by
        intro hnil
        rw [hnil] at hre
        exact hre rfl
      refine ⟨by simp, ?_, ?_⟩
      · exact fun _ => ⟨fun h => Except.noConfusion h, fun hnil => absurd hnil hne⟩
      · intro sid st2 h
        injection h with h
        have h1 : sid =
            (Db.createSummary cid (Db.retrieveContext cid none (1 / 10) 10 st)
              stext llm uid now st).1 := by rw [h]
        have h2 : st2 =
            (Db.createSummary cid (Db.retrieveContext cid none (1 / 10) 10 st)
              stext llm uid now st).2 := by rw [h]
        rw [h1, h2]
        exact createSummaryDb_post cid stext llm uid now st
          (Db.retrieveContext cid none (1 / 10) 10 st)
          (fun m hm => (retrieveContext_mem cid none (1 / 10) 10 st m hm).1)

/-- C8 counterexample: a known conversation whose store holds one archived
but never-scored item still fails with EmptyInput, refuting the claimed
"EmptyInput iff no archived items exist". -/
theorem create_summary_emptyinput_counterexample :
    Orchestrator.createSummary exConvs "c" "sum" "claude" none 1
        exStoreUnscored = .error Orchestrator.OrchError.emptyInput ∧
    ∃ m ∈ exStoreUnscored.items, m.conversationId = some "c" ∧
      m.contextType = some ContextType.archived := by
  decide

/-- C8 witness: the EmptyInput equivalence evaluated on a known
conversation. -/
theorem create_summary_conditions_witness :
    Orchestrator.lookupConv exConvs "c" ≠ none ∧
    (Orchestrator.createSummary exConvs "c" "sum" "claude" none 1
        exStoreUnscored = .error Orchestrator.OrchError.emptyInput ↔
      Db.retrieveContext "c" none (1 / 10) 10 exStoreUnscored = []) :=
  ⟨by decide, (create_summary_conditions exConvs "c" "sum" "claude" none 1
      exStoreUnscored).2.1 (by decide)⟩

/-- C10: every item inserted by `archiveContext` is stored without a
relevance score; `retrieveContext` only ever returns items carrying a
persisted score at or above the threshold; hence, archiving into a store
whose items are all unscored leaves retrieval empty and makes
`createSummary` (for a known conversation) fail with EmptyInput — a
never-scored archived item is invisible to both. -/
theorem unscored_invisible
    (st st2 : Store) (n : Nat) (c : String) (msgs tags : List String)
    (llm : String) (uid : Option String) (now : Int)
    (tg : Option (List String)) (ms : ℚ) (lim : Nat)
    (convs : List (String × ConversationState)) (stext llm2 : String)
    (uid2 : Option String) (now2 : Int)
    (hUnscored : ∀ m ∈ st.items, m.relevanceScore = none)
    (hArch : Db.archiveContext false c msgs tags llm uid now st =
      .ok (n, st2)) :
    (∀ m ∈ st2.items, m.relevanceScore = none) ∧
    (∀ st0 : Store, ∀ m ∈ Db.retrieveContext c tg ms lim st0,
        ∃ r, m.relevanceScore = some r ∧ ms ≤ r) ∧
    Db.retrieveContext c tg ms lim st2 = [] ∧
    (Orchestrator.lookupConv convs c ≠ none →
      Orchestrator.createSummary convs c stext llm2 uid2 now2 st2 =
        .error Orchestrator.OrchError.emptyInput) := by
  obtain ⟨newItems, hitems, hnew⟩ :=
    archiveContext_ok_shape c msgs tags llm uid now st n st2 hArch
  have hAll : ∀ m ∈ st2.items, m.relevanceScore = none := by
    intro m hm
    rw [hitems] at hm
    rcases List.mem_append.mp hm with h | h
    · exact hUnscored m h
    · exact hnew m h
  refine ⟨hAll, fun st0 => retrieveContext_score c tg ms lim st0,
    retrieveContext_eq_nil_of_unscored c tg ms lim st2 hAll, ?_⟩
  intro hk
  unfold Orchestrator.createSummary
  rcases hl : Orchestrator.lookupConv convs c with _ | s0
  · exact absurd hl hk
  · have hnil := retrieveContext_eq_nil_of_unscored c none (1 / 10) 10 st2 hAll
    rw [show ((1 : ℚ) / 10) = 10⁻¹ from one_div 10] at hnil
    simp [hnil]

/-- C10 witness: archiving `["hello"]` into the empty store and observing
that retrieval and createSummary see nothing. -/
theorem unscored_invisible_witness :
    ((∀ m ∈ exStore.items, m.relevanceScore = none) ∧
      Db.archiveContext false "c" ["hello"] [] "claude" none 0 exStore =
        .ok (1, exStoreAfterArchive)) ∧
    ((∀ m ∈ exStoreAfterArchive.items, m.relevanceScore = none) ∧
      (∀ st0 : Store, ∀ m ∈ Db.retrieveContext "c" none (2 / 10) 5 st0,
          ∃ r, m.relevanceScore = some r ∧ 2 / 10 ≤ r) ∧
      Db.retrieveContext "c" none (2 / 10) 5 exStoreAfterArchive = [] ∧
      (Orchestrator.lookupConv exConvs "c" ≠ none →
        Orchestrator.createSummary exConvs "c" "sum" "claude" none 1
          exStoreAfterArchive = .error Orchestrator.OrchError.emptyInput)) :=
  ⟨⟨by simp [exStore], by decide⟩,
   unscored_invisible exStore exStoreAfterArchive 1 "c" ["hello"] []
     "claude" none 0 none (2 / 10) 5 exConvs "sum" "claude" none 1
     (by simp [exStore]) (by decide)⟩

end MemoryMcp
